import Mathlib

/-!
Shallow embedding of the four data-quality checker functions of
`main.py` (`check_nulls`, `check_duplicates`, `check_data_types`,
`check_ranges`) over an explicit in-memory tabular dataset, together
with theorems settling the specification claims about them.

A dataset (pandas `DataFrame`) is a list of column names and a list of
rows, each row a positional list of cell values.  A cell value is an
integer, a floating-point number (modelled as a rational), a string, or
missing (pandas `NaN`).  The checkers are translated function by
function from the source; the in-place column mutation performed by
`check_ranges` is modelled by explicit state passing (the function
returns the updated dataset next to its result), and Python exceptions
are modelled with `Except`.
-/

set_option autoImplicit false

namespace DataChecks

/-- A scalar cell value of the tabular dataset: integer, float
(modelled as a rational), string, or missing (`NaN`). -/
inductive Value where
  | vInt : Int → Value
  | vFloat : ℚ → Value
  | vStr : String → Value
  | missing : Value
  deriving DecidableEq, Repr

/-- An in-memory tabular dataset: named columns and positional rows.
Rows are lists of cells aligned with `cols`. -/
structure DataFrame where
  cols : List String
  rows : List (List Value)
  deriving DecidableEq, Repr

/-- Cell access by position; out-of-range access yields `missing`. -/
def getCell : List Value → Nat → Value
  | [], _ => Value.missing
  | v :: _, 0 => v
  | _ :: r, Nat.succ i => getCell r i

/-- Position of a column name in the header (label-based lookup of
`df[col]`). -/
def colIdx : List String → String → Option Nat
  | [], _ => none
  | c :: rest, d => if c = d then some 0 else (colIdx rest d).map (· + 1)

/-- The sequence of values of the named column, in row order
(the Series `df[col]`); empty if the column is absent. -/
def colValues (df : DataFrame) (c : String) : List Value :=
  match colIdx df.cols c with
  | some i => df.rows.map (fun r => getCell r i)
  | none => []

/-- `pd.isnull` on a single cell: only `missing` is null. -/
def isnull : Value → Bool
  | Value.missing => true
  | _ => false

/-- `check_nulls(df, columns)`: `df[columns].isnull().sum()`.
Selecting `df[columns]` raises a `KeyError` (a `LookupError`) if any
requested name is absent; otherwise the result maps each requested
column, in request order, to the sum over its rows of the null
indicator. -/
def check_nulls (df : DataFrame) (columns : List String) :
    Except String (List (String × Nat)) :=
  if columns.all (fun c => df.cols.contains c) then
    Except.ok (columns.map fun c =>
      (c, ((colValues df c).map (fun v => if isnull v then 1 else 0)).sum))
  else
    Except.error "KeyError: columns not found in the DataFrame"

/-- A row signature contains a missing value in some column. -/
def hasMissing (r : List Value) : Bool :=
  r.any isnull

/-- `check_duplicates(df)`:
`df[df.duplicated(keep=False)].groupby(list(df.columns)).size()`.
`duplicated(keep=False)` flags every row whose full signature occurs at
least twice (pandas treats two `NaN` cells as matching there), and
`groupby` over all columns drops any row whose key tuple contains `NaN`
(its default `dropna=True`), then counts group sizes.  The result is one
`(signature, count)` entry per distinct kept signature. -/
def check_duplicates (df : DataFrame) : List (List Value × Nat) :=
  let dup := df.rows.filter (fun r => decide (2 ≤ df.rows.count r))
  let keys := (dup.filter (fun r => !hasMissing r)).dedup
  keys.map (fun r => (r, dup.count r))

/-- Python runtime type name of a cell value (`type(x).__name__`); a
`NaN` cell is a Python float. -/
def typeName : Value → String
  | Value.vInt _ => "int"
  | Value.vFloat _ => "float"
  | Value.vStr _ => "str"
  | Value.missing => "float"

/-- The non-missing values of a column (`df[col].dropna()`). -/
def nonNullValues (df : DataFrame) (c : String) : List Value :=
  (colValues df c).filter (fun v => !isnull v)

/-- `Series.mode()[0]`: a most frequent element of the list, taking the
first one attaining the maximal multiplicity; `none` on an empty list
(where the indexing raises). -/
def modeFirst (l : List String) : Option String :=
  l.find? (fun x => l.count x = (l.map (fun y => l.count y)).foldr max 0)

/-- `check_data_types(df, expected_types)`: for each expected-type rule
whose column exists, compare the name of the most common runtime type of
the column's non-missing values against the expected name and record a
mismatch message when they differ.  Indexing the mode of a column with
no non-missing values raises, aborting the whole call (`Except.error`).
Absent columns are silently skipped. -/
def check_data_types (df : DataFrame) (expected : List (String × String)) :
    Except String (List (String × String)) :=
  match expected with
  | [] => Except.ok []
  | (col, expType) :: rest =>
    if df.cols.contains col then
      match modeFirst ((nonNullValues df col).map typeName) with
      | none => Except.error ("KeyError: 0 (mode of all-null column " ++ col ++ ")")
      | some actual =>
        match check_data_types df rest with
        | Except.error e => Except.error e
        | Except.ok ms =>
          Except.ok (if actual ≠ expType then
            (col, "Expected " ++ expType ++ ", Found " ++ actual) :: ms
          else ms)
    else check_data_types df rest

/-- Value of a digit string, `none` if some character is not a digit;
the empty string has value `0` (callers rule out the all-empty case). -/
def digitsVal (cs : List Char) : Option Nat :=
  cs.foldl
    (fun acc c =>
      acc.bind (fun n => if c.isDigit then some (n * 10 + (c.toNat - 48)) else none))
    (some 0)

/-- Numeric parsing of a string cell, as `pd.to_numeric` does per
element: optional sign, then either a digit run (an integer) or a digit
run with one decimal point (a float); anything else fails. -/
def parseNumericValue (s : String) : Option Value :=
  let core : List Char → Bool → Option Value := fun cs neg =>
    match cs.span (fun c => !(c = '.')) with
    | (intPart, []) =>
      if intPart.isEmpty then none
      else (digitsVal intPart).map (fun n =>
        Value.vInt (if neg then -(n : Int) else (n : Int)))
    | (intPart, _ :: fracPart) =>
      if (intPart.isEmpty && fracPart.isEmpty) || fracPart.any (fun c => c = '.') then
        none
      else
        match digitsVal intPart, digitsVal fracPart with
        | some ip, some fp =>
          let q : ℚ := (ip : ℚ) + (fp : ℚ) / ((10 : ℚ) ^ fracPart.length)
          some (Value.vFloat (if neg then -q else q))
        | _, _ => none
  match ((s.toList.dropWhile (fun c => c = ' ')).reverse.dropWhile
      (fun c => c = ' ')).reverse with
  | '-' :: rest => core rest true
  | '+' :: rest => core rest false
  | cs => core cs false

/-- Per-cell effect of `pd.to_numeric(·, errors='coerce')`: numbers are
kept, strings are parsed as numbers or become missing, missing stays
missing. -/
def coerceValue : Value → Value
  | Value.vInt n => Value.vInt n
  | Value.vFloat q => Value.vFloat q
  | Value.vStr s => (parseNumericValue s).getD Value.missing
  | Value.missing => Value.missing

/-- Numeric reading of a cell, used by the comparisons of
`check_ranges`; strings and missing cells have none. -/
def toNum : Value → Option ℚ
  | Value.vInt n => some (n : ℚ)
  | Value.vFloat q => some q
  | _ => none

/-- `(df[col] < min_val) | (df[col] > max_val)` on one cell: a missing
cell compares false against both bounds. -/
def outOfRange (mn mx : ℚ) (v : Value) : Bool :=
  match toNum v with
  | some x => decide (x < mn) || decide (mx < x)
  | none => false

/-- `df[col] = pd.to_numeric(df[col], errors='coerce')`: replace the
named column by its numeric coercion; identity when the column is
absent. -/
def coerceColumn (df : DataFrame) (c : String) : DataFrame :=
  match colIdx df.cols c with
  | some i =>
    ⟨df.cols, df.rows.map (fun r => r.set i (coerceValue (getCell r i)))⟩
  | none => df

/-- The body of the `try` block of `check_ranges` for one rule: coerce
the column in place, filter the coerced column by the out-of-range
predicate, and report the violating values when there are any.  The
translation of each operation is total, so this body never returns
`Except.error`; the `Except` type records where a Python exception
would be caught. -/
def rangeBody (df : DataFrame) (col : String) (mn mx : ℚ) :
    Except String (DataFrame × Option (List Value)) :=
  let df2 := coerceColumn df col
  let invalid := (colValues df2 col).filter (outOfRange mn mx)
  Except.ok (df2, if invalid.isEmpty then none else some invalid)

/-- The loop of `check_ranges` with the per-rule `try` body abstracted:
for each rule whose column exists, run the body; a successful body
updates the dataset and possibly adds a violation entry, while an
exception from the body is caught and recorded as a textual
`"Error: ..."` entry for that column, never escaping the loop.  Returns
the final dataset next to the violations mapping. -/
def check_ranges_gen
    (body : DataFrame → String → ℚ → ℚ → Except String (DataFrame × Option (List Value)))
    (df : DataFrame) :
    List (String × ℚ × ℚ) → DataFrame × List (String × (List Value ⊕ String))
  | [] => (df, [])
  | (col, mn, mx) :: rest =>
    if df.cols.contains col then
      match body df col mn mx with
      | Except.ok (df2, some inv) =>
        let res := check_ranges_gen body df2 rest
        (res.1, (col, Sum.inl inv) :: res.2)
      | Except.ok (df2, none) => check_ranges_gen body df2 rest
      | Except.error e =>
        let res := check_ranges_gen body df rest
        (res.1, (col, Sum.inr ("Error: " ++ e)) :: res.2)
    else check_ranges_gen body df rest

/-- `check_ranges(df, range_rules)`: the loop instantiated with the
actual coerce-and-compare body. -/
def check_ranges (df : DataFrame) (rules : List (String × ℚ × ℚ)) :
    DataFrame × List (String × (List Value ⊕ String)) :=
  check_ranges_gen rangeBody df rules

/-- Concrete dataset of the specification's worked scenario:
rows `[{a:1,b:"x"}, {a:5,b:"x"}, {a:1,b:"x"}]`. -/
def dfScenario : DataFrame :=
  ⟨["a", "b"],
   [[Value.vInt 1, Value.vStr "x"], [Value.vInt 5, Value.vStr "x"],
    [Value.vInt 1, Value.vStr "x"]]⟩

/-- Concrete dataset with two distinct integer rows. -/
def dfInts : DataFrame := ⟨["a"], [[Value.vInt 1], [Value.vInt 2]]⟩

/-- Concrete dataset whose two rows agree everywhere and both lack a
value in column `b`. -/
def dfMissingDup : DataFrame :=
  ⟨["a", "b"], [[Value.vInt 1, Value.missing], [Value.vInt 1, Value.missing]]⟩

/-- Concrete dataset with one duplicated pair of rows containing a
missing value and one duplicated pair without any. -/
def dfMixedDup : DataFrame :=
  ⟨["a", "b"],
   [[Value.vInt 1, Value.missing], [Value.vInt 1, Value.missing],
    [Value.vInt 2, Value.vStr "x"], [Value.vInt 2, Value.vStr "x"]]⟩

/-- Concrete dataset whose only column holds no non-missing value. -/
def dfAllNull : DataFrame := ⟨["a"], [[Value.missing]]⟩

/-- Concrete dataset of the specification's coercion scenario: column
`b` holding the strings "1", "2" and "oops". -/
def dfStrNums : DataFrame :=
  ⟨["b"], [[Value.vStr "1"], [Value.vStr "2"], [Value.vStr "oops"]]⟩

end DataChecks

namespace DataChecks

lemma isnull_eq_true_iff (v : Value) : isnull v = true ↔ v = Value.missing := by
  cases v <;> simp [isnull]

lemma contains_iff_mem (l : List String) (c : String) : l.contains c = true ↔ c ∈ l :=
  List.elem_iff

lemma colIdx_eq_none_of_not_mem (l : List String) (c : String) (h : ¬ c ∈ l) :
    colIdx l c = none := by
  induction l with
  | nil => rfl
  | cons a t ih =>
    simp only [List.mem_cons, not_or] at h
    have h1 : ¬ a = c := fun e => h.1 e.symm
    simp [colIdx, h1, ih h.2]

lemma colIdx_isSome_of_mem (l : List String) (c : String) (h : c ∈ l) :
    ∃ i, colIdx l c = some i := by
  induction l with
  | nil => cases h
  | cons a t ih =>
    by_cases hac : a = c
    · exact ⟨0, by simp [colIdx, hac]⟩
    · rcases List.mem_cons.mp h with h1 | h2
      · exact absurd h1.symm hac
      · rcases ih h2 with ⟨i, hi⟩
        exact ⟨i + 1, by simp [colIdx, hac, hi]⟩

lemma getCell_set (r : List Value) (i : Nat) (f : Value → Value)
    (hf : f Value.missing = Value.missing) :
    getCell (r.set i (f (getCell r i))) i = f (getCell r i) := by
  induction r generalizing i with
  | nil => simpa [getCell] using hf.symm
  | cons a t ih =>
    cases i with
    | zero => simp [getCell]
    | succ n => simpa [getCell] using ih n

lemma set_getCell_self (r : List Value) (i : Nat) : r.set i (getCell r i) = r := by
  induction r generalizing i with
  | nil => simp
  | cons a t ih =>
    cases i with
    | zero => simp [getCell]
    | succ n => simpa [getCell] using ih n

lemma colValues_coerceColumn (df : DataFrame) (c : String) :
    colValues (coerceColumn df c) c = (colValues df c).map coerceValue := by
  cases h : colIdx df.cols c with
  | none => simp [colValues, coerceColumn, h]
  | some i =>
    simp only [colValues, coerceColumn, h, List.map_map]
    apply List.map_congr_left
    intro r _
    exact getCell_set r i coerceValue rfl

lemma coerceColumn_of_not_mem (df : DataFrame) (c : String) (h : ¬ c ∈ df.cols) :
    coerceColumn df c = df := by
  simp [coerceColumn, colIdx_eq_none_of_not_mem _ _ h]

lemma coerceColumn_of_numeric (df : DataFrame) (c : String)
    (h : ∀ v ∈ colValues df c, coerceValue v = v) : coerceColumn df c = df := by
  cases hc : colIdx df.cols c with
  | none => simp [coerceColumn, hc]
  | some i =>
    simp only [coerceColumn, hc]
    have : df.rows.map (fun r => r.set i (coerceValue (getCell r i))) = df.rows := by
      have := List.map_congr_left (l := df.rows)
        (f := fun r => r.set i (coerceValue (getCell r i))) (g := fun r => r)
        (fun r hr => by
          show r.set i (coerceValue (getCell r i)) = r
          rw [h (getCell r i) (by simpa [colValues, hc] using List.mem_map_of_mem _ hr)]
          exact set_getCell_self r i)
      simpa using this
    simp [this]

lemma sum_indicator_eq_countP (l : List Value) :
    (l.map (fun v => if isnull v then 1 else 0)).sum
      = l.countP (fun v => decide (v = Value.missing)) := by
  induction l with
  | nil => rfl
  | cons a t ih =>
    rw [List.map_cons, List.sum_cons, List.countP_cons, ih]
    cases a <;> simp [isnull, Nat.add_comm]

lemma foldr_max_const (L : List Nat) (n : Nat) (hne : L ≠ []) (h : ∀ m ∈ L, m = n) :
    L.foldr max 0 = n := by
  induction L with
  | nil => cases hne rfl
  | cons a t ih =>
    cases t with
    | nil => simpa using h a (by simp)
    | cons b u =>
      rw [List.foldr_cons, ih (by simp) (fun m hm => h m (List.mem_cons_of_mem _ hm)),
        h a (List.mem_cons_self _ _)]
      exact max_self n

lemma modeFirst_const (l : List String) (t : String) (hne : l ≠ [])
    (h : ∀ x ∈ l, x = t) : modeFirst l = some t := by
  cases l with
  | nil => cases hne rfl
  | cons a l0 =>
    have hat : a = t := h a (List.mem_cons_self _ _)
    have hcnt : (a :: l0).count a = (a :: l0).length :=
      List.count_eq_length.mpr (fun b hb => hat.trans (h b hb).symm)
    have hmax : ((a :: l0).map (fun y => (a :: l0).count y)).foldr max 0
        = (a :: l0).length := by
      apply foldr_max_const _ _ (by simp)
      intro m hm
      rcases List.mem_map.mp hm with ⟨x, hx, rfl⟩
      exact List.count_eq_length.mpr (fun b hb => (h x hx).trans (h b hb).symm)
    unfold modeFirst
    simp only [hmax, List.find?_cons, hcnt]
    simp [hat]

lemma mem_check_duplicates (df : DataFrame) (r : List Value) (n : Nat) :
    (r, n) ∈ check_duplicates df ↔
      hasMissing r = false ∧ 2 ≤ df.rows.count r ∧ n = df.rows.count r := by
  simp only [check_duplicates]
  constructor
  · intro hmem
    rcases List.mem_map.mp hmem with ⟨a, ha, heq⟩
    have h1 : a = r := congrArg Prod.fst heq
    have h2 : (df.rows.filter (fun s => decide (2 ≤ df.rows.count s))).count a = n :=
      congrArg Prod.snd heq
    rw [h1] at ha h2
    have ha2 := List.mem_dedup.mp ha
    have ha3 := List.mem_filter.mp ha2
    have ha4 := List.mem_filter.mp ha3.1
    have hcnt : 2 ≤ df.rows.count r := by simpa using ha4.2
    refine ⟨by simpa using ha3.2, hcnt, ?_⟩
    rw [← h2, List.count_filter (by simpa using hcnt)]
  · rintro ⟨hm, hc, rfl⟩
    have hmemrows : r ∈ df.rows := List.count_pos_iff.mp (lt_of_lt_of_le (by norm_num) hc)
    have hdup : r ∈ df.rows.filter (fun s => decide (2 ≤ df.rows.count s)) :=
      List.mem_filter.mpr ⟨hmemrows, by simpa using hc⟩
    have hpred : (!hasMissing r) = true := by simp [hm]
    have hkeys : r ∈ ((df.rows.filter (fun s => decide (2 ≤ df.rows.count s))).filter
        (fun s => !hasMissing s)).dedup :=
      List.mem_dedup.mpr (List.mem_filter.mpr ⟨hdup, hpred⟩)
    refine List.mem_map.mpr ⟨r, hkeys, ?_⟩
    rw [List.count_filter (by simpa using hc)]

lemma countP_le_one_of_nodup {α : Type} [DecidableEq α] (l : List α) (hnd : l.Nodup)
    (r : α) : l.countP (fun a => decide (a = r)) ≤ 1 := by
  induction l with
  | nil => simp
  | cons a t ih =>
    rw [List.countP_cons]
    rcases List.nodup_cons.mp hnd with ⟨hna, hnt⟩
    by_cases ha : a = r
    · have hz : t.countP (fun x => decide (x = r)) = 0 := by
        apply List.countP_eq_zero.mpr
        intro x hx
        simp only [decide_eq_true_eq]
        intro e
        rw [e, ← ha] at hx
        exact hna hx
      simp [ha, hz]
    · simp only [ha, decide_eq_true_eq, if_neg ha, Nat.add_zero]
      exact ih hnt

lemma check_duplicates_count_le_one (df : DataFrame) (r : List Value) :
    (check_duplicates df).countP (fun p => decide (p.1 = r)) ≤ 1 := by
  simp only [check_duplicates, List.countP_map]
  exact countP_le_one_of_nodup _
    (List.nodup_dedup
      ((df.rows.filter (fun s => decide (2 ≤ df.rows.count s))).filter
        (fun s => !hasMissing s)))
    r

lemma check_duplicates_of_no_dup (df : DataFrame)
    (h : ∀ s ∈ df.rows, df.rows.count s = 1) : check_duplicates df = [] := by
  simp only [check_duplicates]
  have : df.rows.filter (fun s => decide (2 ≤ df.rows.count s)) = [] :=
    List.filter_eq_nil_iff.mpr (fun s hs => by simp [h s hs])
  simp [this]

lemma check_ranges_fst (rules : List (String × ℚ × ℚ)) (df : DataFrame) :
    (check_ranges df rules).1 = rules.foldl (fun d rule => coerceColumn d rule.1) df := by
  induction rules generalizing df with
  | nil => rfl
  | cons rule rest ih =>
    obtain ⟨col, mn, mx⟩ := rule
    by_cases h : df.cols.contains col = true
    · cases hinv : ((colValues (coerceColumn df col) col).filter (outOfRange mn mx)).isEmpty with
      | true =>
        simp only [check_ranges, check_ranges_gen, h, if_true, rangeBody, hinv]
        exact ih (coerceColumn df col)
      | false =>
        simp only [check_ranges, check_ranges_gen, h, if_true, rangeBody, hinv]
        exact ih (coerceColumn df col)
    · have hfalse : df.cols.contains col = false := by simpa using h
      have hnm : ¬ col ∈ df.cols := by
        intro hm
        rw [(contains_iff_mem _ _).mpr hm] at hfalse
        cases hfalse
      simp only [check_ranges, check_ranges_gen, hfalse, Bool.false_eq_true, if_false]
      rw [List.foldl_cons, coerceColumn_of_not_mem df col hnm]
      exact ih df

lemma check_ranges_singleton (df : DataFrame) (col : String) (mn mx : ℚ)
    (h : df.cols.contains col = true) :
    check_ranges df [(col, mn, mx)] =
      (coerceColumn df col,
        if ((colValues df col).map coerceValue).filter (outOfRange mn mx) = [] then []
        else [(col, Sum.inl (((colValues df col).map coerceValue).filter (outOfRange mn mx)))]) := by
  cases hinv : (((colValues df col).map coerceValue).filter (outOfRange mn mx)).isEmpty with
  | true =>
    have he : ((colValues df col).map coerceValue).filter (outOfRange mn mx) = [] :=
      List.isEmpty_iff.mp hinv
    simp only [check_ranges, check_ranges_gen, h, if_true, rangeBody, colValues_coerceColumn, hinv, he]
    simp [check_ranges_gen]
  | false =>
    have he : ¬ ((colValues df col).map coerceValue).filter (outOfRange mn mx) = [] := by
      intro e
      rw [e] at hinv
      cases hinv
    simp only [check_ranges, check_ranges_gen, h, if_true, rangeBody, colValues_coerceColumn, hinv, he]
    simp [check_ranges_gen, he]

end DataChecks

namespace DataChecks

lemma outOfRange_eq_true_iff (mn mx : ℚ) (v : Value) :
    outOfRange mn mx v = true ↔ ∃ x : ℚ, toNum v = some x ∧ (x < mn ∨ mx < x) := by
  cases v <;> simp [outOfRange, toNum]

lemma coerceValue_eq_self_of_toNum (v : Value) (x : ℚ) (h : toNum v = some x) :
    coerceValue v = v := by
  cases v
  · rfl
  · rfl
  · simp [toNum] at h
  · simp [toNum] at h

lemma map_typeName_ne_nil (df : DataFrame) (col : String)
    (h : nonNullValues df col ≠ []) : (nonNullValues df col).map typeName ≠ [] := by
  intro e
  exact h (List.map_eq_nil_iff.mp e)

/-- Claim C1: for every dataset and every requested list of columns all
present in the dataset, `check_nulls` returns, for each requested
column, exactly the number of rows whose value in that column is
missing; a column with no missing value gets `0`. -/
theorem null_check_counts_missing (df : DataFrame) (columns : List String)
    (h : ∀ c ∈ columns, df.cols.contains c = true) :
    check_nulls df columns =
      Except.ok (columns.map fun c =>
        (c, (colValues df c).countP (fun v => decide (v = Value.missing)))) ∧
    ∀ c, (∀ v ∈ colValues df c, v ≠ Value.missing) →
      (colValues df c).countP (fun v => decide (v = Value.missing)) = 0 := by
  constructor
  · have hall : columns.all (fun c => df.cols.contains c) = true := List.all_eq_true.mpr h
    simp only [check_nulls, hall, if_true]
    congr 1
    apply List.map_congr_left
    intro c _
    exact congrArg (fun k => (c, k)) (sum_indicator_eq_countP (colValues df c))
  · intro c hc
    exact List.countP_eq_zero.mpr (fun v hv => by simpa using hc v hv)

theorem null_check_counts_missing_witness :
    check_nulls dfScenario ["a"] =
      Except.ok (["a"].map fun c =>
        (c, (colValues dfScenario c).countP (fun v => decide (v = Value.missing)))) ∧
    ∀ c, (∀ v ∈ colValues dfScenario c, v ≠ Value.missing) →
      (colValues dfScenario c).countP (fun v => decide (v = Value.missing)) = 0 :=
  null_check_counts_missing dfScenario ["a"] (by decide)

/-- Claim C2 counterexample: in `dfMissingDup` the full-row signature
`[1, missing]` occurs twice, yet `check_duplicates` returns no entry at
all, because the grouping step drops signatures containing a missing
value. -/
theorem duplicate_check_missing_signature_cex :
    dfMissingDup.rows.count [Value.vInt 1, Value.missing] = 2 ∧
    check_duplicates dfMissingDup = [] := by
  exact ⟨by decide, by decide⟩

/-- Claim C2 (amended): `check_duplicates` returns exactly one entry per
distinct full-row signature that contains no missing value and occurs
in two or more rows, carrying that signature and its occurrence count
(at least 2); unique rows, and duplicated rows whose signature contains
a missing value, never appear; a dataset with no repeated row yields an
empty result. -/
theorem duplicate_check_groups (df : DataFrame) (r : List Value) (n : Nat) :
    ((r, n) ∈ check_duplicates df ↔
      hasMissing r = false ∧ 2 ≤ df.rows.count r ∧ n = df.rows.count r) ∧
    (check_duplicates df).countP (fun p => decide (p.1 = r)) ≤ 1 ∧
    ((∀ s ∈ df.rows, df.rows.count s = 1) → check_duplicates df = []) :=
  ⟨mem_check_duplicates df r n, check_duplicates_count_le_one df r,
    check_duplicates_of_no_dup df⟩

theorem duplicate_check_groups_witness :
    ([Value.vInt 1, Value.vStr "x"], 2) ∈ check_duplicates dfScenario ∧
    check_duplicates dfInts = [] :=
  ⟨(duplicate_check_groups dfScenario [Value.vInt 1, Value.vStr "x"] 2).1.mpr (by decide),
    (duplicate_check_groups dfInts [] 0).2.2 (by decide)⟩

/-- Claim C9 counterexample: in `dfMixedDup` the two rows `[1, missing]`
match each other and occur twice, exactly like the two rows
`[2, "x"]`; but only the signature without a missing value is reported,
so matching rows with a shared missing column are not treated the same
as ordinary duplicated rows. -/
theorem duplicate_missing_vs_plain_cex :
    dfMixedDup.rows.count [Value.vInt 1, Value.missing] = 2 ∧
    check_duplicates dfMixedDup = [([Value.vInt 2, Value.vStr "x"], 2)] := by
  exact ⟨by decide, by decide⟩

/-- Claim C9 (amended): two rows agreeing on every column, both with a
missing value in the same column, are matched by the duplicated-row
flagging step (their shared signature passes the occurrence filter),
but the grouping step drops every signature containing a missing value,
so such rows never appear in the output; every reported signature is
free of missing values. -/
theorem duplicate_missing_rows_dropped (df : DataFrame) (r : List Value) (n : Nat) :
    (r ∈ df.rows → 2 ≤ df.rows.count r →
      r ∈ df.rows.filter (fun s => decide (2 ≤ df.rows.count s))) ∧
    ((r, n) ∈ check_duplicates df → hasMissing r = false) := by
  constructor
  · intro hmem hc
    exact List.mem_filter.mpr ⟨hmem, by simpa using hc⟩
  · intro h
    exact ((mem_check_duplicates df r n).mp h).1

theorem duplicate_missing_rows_dropped_witness :
    [Value.vInt 1, Value.missing] ∈
      dfMixedDup.rows.filter (fun s => decide (2 ≤ dfMixedDup.rows.count s)) ∧
    hasMissing [Value.vInt 2, Value.vStr "x"] = false :=
  ⟨(duplicate_missing_rows_dropped dfMixedDup [Value.vInt 1, Value.missing] 0).1
      (by decide) (by decide),
    (duplicate_missing_rows_dropped dfMixedDup [Value.vInt 2, Value.vStr "x"] 2).2
      (by decide)⟩

end DataChecks

namespace DataChecks

lemma check_data_types_mem (df : DataFrame) :
    ∀ (expected ms : List (String × String)) (c m : String),
      check_data_types df expected = Except.ok ms → (c, m) ∈ ms →
      ∃ e s, (c, e) ∈ expected ∧ df.cols.contains c = true ∧
        modeFirst ((nonNullValues df c).map typeName) = some s ∧ s ≠ e ∧
        m = "Expected " ++ e ++ ", Found " ++ s := by
  intro expected
  induction expected with
  | nil =>
    intro ms c m hok hmem
    simp only [check_data_types, Except.ok.injEq] at hok
    subst hok
    cases hmem
  | cons hd rest ih =>
    obtain ⟨col, expType⟩ := hd
    intro ms c m hok hmem
    by_cases hcol : df.cols.contains col = true
    · simp only [check_data_types, hcol, if_true] at hok
      cases hmf : modeFirst ((nonNullValues df col).map typeName) with
      | none => rw [hmf] at hok; cases hok
      | some actual =>
        rw [hmf] at hok
        cases hrest : check_data_types df rest with
        | error e2 => rw [hrest] at hok; cases hok
        | ok ms2 =>
          rw [hrest] at hok
          have hms := Except.ok.inj hok
          by_cases hae : actual = expType
          · rw [if_neg (by simpa using hae)] at hms
            subst hms
            rcases ih ms2 c m hrest hmem with ⟨e, s, hin, h2, h3, h4, h5⟩
            exact ⟨e, s, List.mem_cons_of_mem _ hin, h2, h3, h4, h5⟩
          · rw [if_pos (by simpa using hae)] at hms
            subst hms
            rcases List.mem_cons.mp hmem with hh | ht
            · have hc1 : c = col := congrArg Prod.fst hh
              have hm1 : m = "Expected " ++ expType ++ ", Found " ++ actual :=
                congrArg Prod.snd hh
              subst hc1
              exact ⟨expType, actual, List.mem_cons_self _ _, hcol, hmf, hae, hm1⟩
            · rcases ih ms2 c m hrest ht with ⟨e, s, hin, h2, h3, h4, h5⟩
              exact ⟨e, s, List.mem_cons_of_mem _ hin, h2, h3, h4, h5⟩
    · have hf : df.cols.contains col = false := by simpa using hcol
      simp only [check_data_types, hf, Bool.false_eq_true, if_false] at hok
      rcases ih ms c m hok hmem with ⟨e, s, hin, h2, h3, h4, h5⟩
      exact ⟨e, s, List.mem_cons_of_mem _ hin, h2, h3, h4, h5⟩

/-- Claim C4: if a column's non-missing values are uniformly of one
runtime type, `check_data_types` on a rule for that column reports a
mismatch exactly when that type's name differs from the expected name;
and every entry of any successful output records a column whose
dominant type name differs from its expected name, so an empty output
means full agreement. -/
theorem type_check_dominant (df : DataFrame) (col expType t : String)
    (h : df.cols.contains col = true)
    (hne : nonNullValues df col ≠ [])
    (huni : ∀ v ∈ nonNullValues df col, typeName v = t) :
    check_data_types df [(col, expType)] =
      Except.ok (if t = expType then []
        else [(col, "Expected " ++ expType ++ ", Found " ++ t)]) ∧
    (∀ expected ms c m, check_data_types df expected = Except.ok ms → (c, m) ∈ ms →
      ∃ e s, (c, e) ∈ expected ∧ df.cols.contains c = true ∧
        modeFirst ((nonNullValues df c).map typeName) = some s ∧ s ≠ e ∧
        m = "Expected " ++ e ++ ", Found " ++ s) := by
  constructor
  · have hmode : modeFirst ((nonNullValues df col).map typeName) = some t :=
      modeFirst_const _ t (map_typeName_ne_nil df col hne)
        (fun x hx => by
          rcases List.mem_map.mp hx with ⟨v, hv, rfl⟩
          exact huni v hv)
    simp only [check_data_types, h, if_true, hmode]
    by_cases hte : t = expType
    · simp [hte]
    · simp [hte]
  · exact check_data_types_mem df

theorem type_check_dominant_witness :
    check_data_types dfScenario [("a", "float")] =
      Except.ok (if "int" = "float" then []
        else [("a", "Expected " ++ "float" ++ ", Found " ++ "int")]) ∧
    (∀ expected ms c m,
      check_data_types dfScenario expected = Except.ok ms → (c, m) ∈ ms →
      ∃ e s, (c, e) ∈ expected ∧ dfScenario.cols.contains c = true ∧
        modeFirst ((nonNullValues dfScenario c).map typeName) = some s ∧ s ≠ e ∧
        m = "Expected " ++ e ++ ", Found " ++ s) :=
  type_check_dominant dfScenario "a" "float" "int" (by rfl) (by decide) (by decide)

/-- Claim C8: a type rule targeting an existing column all of whose
values are missing makes `check_data_types` fail with a lookup error
(indexing the empty mode) instead of returning a result. -/
theorem type_check_all_null_error (df : DataFrame)
    (expected : List (String × String)) (col expType : String)
    (hmem : (col, expType) ∈ expected)
    (hcol : df.cols.contains col = true)
    (hnull : nonNullValues df col = []) :
    ∃ msg, check_data_types df expected = Except.error msg := by
  induction expected with
  | nil => cases hmem
  | cons hd rest ih =>
    obtain ⟨c0, e0⟩ := hd
    rcases List.mem_cons.mp hmem with hh | ht
    · cases hh
      have hmf : modeFirst ((nonNullValues df col).map typeName) = none := by
        rw [hnull]
        rfl
      refine ⟨"KeyError: 0 (mode of all-null column " ++ col ++ ")", ?_⟩
      simp only [check_data_types, hcol, if_true, hmf]
    · by_cases hc0 : df.cols.contains c0 = true
      · cases hmf0 : modeFirst ((nonNullValues df c0).map typeName) with
        | none =>
          refine ⟨"KeyError: 0 (mode of all-null column " ++ c0 ++ ")", ?_⟩
          simp only [check_data_types, hc0, if_true, hmf0]
        | some a0 =>
          rcases ih ht with ⟨msg, hmsg⟩
          refine ⟨msg, ?_⟩
          simp only [check_data_types, hc0, if_true, hmf0, hmsg]
      · have hf : df.cols.contains c0 = false := by simpa using hc0
        rcases ih ht with ⟨msg, hmsg⟩
        exact ⟨msg, by simp only [check_data_types, hf, Bool.false_eq_true, if_false, hmsg]⟩

theorem type_check_all_null_error_witness :
    ∃ msg, check_data_types dfAllNull [("a", "int")] = Except.error msg :=
  type_check_all_null_error dfAllNull [("a", "int")] "a" "int" (by decide)
    (by rfl) (by rfl)

end DataChecks

namespace DataChecks

/-- Claim C3: for a range rule on an existing column, the reported list
for that column is exactly the subsequence of coerced column values
that are strictly below the minimum or strictly above the maximum; a
value is out of range exactly when it reads as a number violating a
bound, so a value whose coercion failed (now missing) is never
reported; and when no coerced value is out of range the column gets no
entry. -/
theorem range_check_violations (df : DataFrame) (col : String) (mn mx : ℚ)
    (h : df.cols.contains col = true) :
    ((check_ranges df [(col, mn, mx)]).2 =
      if ((colValues df col).map coerceValue).filter (outOfRange mn mx) = [] then []
      else [(col, Sum.inl (((colValues df col).map coerceValue).filter (outOfRange mn mx)))]) ∧
    (∀ v, v ∈ ((colValues df col).map coerceValue).filter (outOfRange mn mx) ↔
      v ∈ (colValues df col).map coerceValue ∧
        ∃ x : ℚ, toNum v = some x ∧ (x < mn ∨ mx < x)) ∧
    Value.missing ∉ ((colValues df col).map coerceValue).filter (outOfRange mn mx) := by
  refine ⟨?_, ?_, ?_⟩
  · rw [check_ranges_singleton df col mn mx h]
  · intro v
    rw [List.mem_filter, outOfRange_eq_true_iff]
  · intro hmem
    have hfalse := (List.mem_filter.mp hmem).2
    simp [outOfRange, toNum] at hfalse

theorem range_check_violations_witness :
    (check_ranges dfStrNums [("b", 0, 10)]).2 = [] ∧
    Value.missing ∉ ((colValues dfStrNums "b").map coerceValue).filter (outOfRange 0 10) := by
  have h := range_check_violations dfStrNums "b" 0 10 (by rfl)
  refine ⟨?_, h.2.2⟩
  have hfil : ((colValues dfStrNums "b").map coerceValue).filter (outOfRange 0 10) = [] := by
    rfl
  rw [h.1, if_pos hfil]

/-- Claim C5: `check_ranges` is the catch-all loop `check_ranges_gen`
applied to the coerce-and-compare body; for every body and every rule
whose column exists, an exception (`Except.error`) raised by the body
is caught and replaced by a textual error entry for that column, while
the remaining rules are still processed and the dataset is left as the
remaining rules produce it — no exception ever escapes to the caller. -/
theorem range_check_catches_errors
    (body : DataFrame → String → ℚ → ℚ → Except String (DataFrame × Option (List Value)))
    (df : DataFrame) (col : String) (mn mx : ℚ) (rest : List (String × ℚ × ℚ))
    (e : String) (h : df.cols.contains col = true)
    (hb : body df col mn mx = Except.error e) :
    check_ranges = check_ranges_gen rangeBody ∧
    (check_ranges_gen body df ((col, mn, mx) :: rest)).2 =
      (col, Sum.inr ("Error: " ++ e)) :: (check_ranges_gen body df rest).2 ∧
    (check_ranges_gen body df ((col, mn, mx) :: rest)).1 =
      (check_ranges_gen body df rest).1 := by
  refine ⟨rfl, ?_, ?_⟩ <;> simp only [check_ranges_gen, h, if_true, hb]

theorem range_check_catches_errors_witness :
    check_ranges = check_ranges_gen rangeBody ∧
    (check_ranges_gen (fun _ _ _ _ => Except.error "boom") dfInts [("a", 0, 1)]).2 =
      ("a", Sum.inr ("Error: " ++ "boom")) ::
        (check_ranges_gen (fun _ _ _ _ => Except.error "boom") dfInts []).2 ∧
    (check_ranges_gen (fun _ _ _ _ => Except.error "boom") dfInts [("a", 0, 1)]).1 =
      (check_ranges_gen (fun _ _ _ _ => Except.error "boom") dfInts []).1 :=
  range_check_catches_errors (fun _ _ _ _ => Except.error "boom") dfInts "a" 0 1 []
    "boom" (by rfl) rfl

/-- Claim C6: missing-column handling is asymmetric: `check_nulls`
fails with its lookup error as soon as the requested list contains an
absent column, while `check_data_types` and `check_ranges` silently
skip a rule whose column is absent, producing no entry, no error, and
no change to the dataset. -/
theorem missing_column_asymmetry (df : DataFrame) (col : String)
    (columns : List String) (expType : String) (mn mx : ℚ)
    (h : df.cols.contains col = false) (hmem : col ∈ columns) :
    check_nulls df columns = Except.error "KeyError: columns not found in the DataFrame" ∧
    check_data_types df [(col, expType)] = Except.ok [] ∧
    check_ranges df [(col, mn, mx)] = (df, []) := by
  refine ⟨?_, ?_, ?_⟩
  · cases hall : columns.all (fun c => df.cols.contains c) with
    | false => simp only [check_nulls, hall, Bool.false_eq_true, if_false]
    | true =>
      exact absurd (List.all_eq_true.mp hall col hmem)
        (by rw [h]; exact Bool.false_ne_true)
  · simp only [check_data_types, h, Bool.false_eq_true, if_false]
  · simp only [check_ranges, check_ranges_gen, h, Bool.false_eq_true, if_false]

theorem missing_column_asymmetry_witness :
    check_nulls dfInts ["b"] = Except.error "KeyError: columns not found in the DataFrame" ∧
    check_data_types dfInts [("b", "int")] = Except.ok [] ∧
    check_ranges dfInts [("b", 0, 1)] = (dfInts, []) :=
  missing_column_asymmetry dfInts "b" ["b"] "int" 0 1 (by rfl) (by decide)

/-- Claim C7: only the range check mutates the dataset: the dataset
returned by `check_ranges` is the input dataset with each targeted
column replaced in place by its numeric coercion (absent columns left
alone), and the targeted column of the returned dataset holds exactly
the coerced values of the original column, which is what any later
check on the returned dataset observes.  `check_nulls`,
`check_duplicates` and `check_data_types` are embedded as pure
functions of the dataset — they return no dataset and leave it
unchanged by construction. -/
theorem range_check_only_mutator (df : DataFrame)
    (rules : List (String × ℚ × ℚ)) (col : String) :
    (check_ranges df rules).1 = rules.foldl (fun d rule => coerceColumn d rule.1) df ∧
    (∀ mn mx, colValues (check_ranges df [(col, mn, mx)]).1 col =
      (colValues df col).map coerceValue) := by
  constructor
  · exact check_ranges_fst rules df
  · intro mn mx
    rw [check_ranges_fst [(col, mn, mx)] df]
    simp only [List.foldl_cons, List.foldl_nil]
    exact colValues_coerceColumn df col

/-- Claim C10: on a column that is already fully numeric and entirely
within the rule's bounds, `check_ranges` reports nothing and leaves the
dataset unchanged, so running it twice yields an empty violation
mapping both times. -/
theorem range_check_idempotent (df : DataFrame) (col : String) (mn mx : ℚ)
    (h : df.cols.contains col = true)
    (hvals : ∀ v ∈ colValues df col, ∃ x : ℚ, toNum v = some x ∧ mn ≤ x ∧ x ≤ mx) :
    check_ranges df [(col, mn, mx)] = (df, []) ∧
    (check_ranges (check_ranges df [(col, mn, mx)]).1 [(col, mn, mx)]).2 = [] := by
  have hco : coerceColumn df col = df :=
    coerceColumn_of_numeric df col (fun v hv => by
      rcases hvals v hv with ⟨x, hx, _⟩
      exact coerceValue_eq_self_of_toNum v x hx)
  have hfil : ((colValues df col).map coerceValue).filter (outOfRange mn mx) = [] := by
    apply List.filter_eq_nil_iff.mpr
    intro v hv
    rcases List.mem_map.mp hv with ⟨w, hw, rfl⟩
    rcases hvals w hw with ⟨x, hx, hge, hle⟩
    rw [coerceValue_eq_self_of_toNum w x hx]
    intro hbad
    rcases (outOfRange_eq_true_iff mn mx w).mp hbad with ⟨y, hy, hor⟩
    rw [hx] at hy
    cases Option.some.inj hy
    exact hor.elim (fun hlt => absurd hlt (not_lt.mpr hge))
      (fun hgt => absurd hgt (not_lt.mpr hle))
  have hres : check_ranges df [(col, mn, mx)] = (df, []) := by
    rw [check_ranges_singleton df col mn mx h, hco, if_pos hfil]
  exact ⟨hres, by simp [hres]⟩

theorem range_check_idempotent_witness :
    check_ranges dfInts [("a", 0, 5)] = (dfInts, []) ∧
    (check_ranges (check_ranges dfInts [("a", 0, 5)]).1 [("a", 0, 5)]).2 = [] := by
  apply range_check_idempotent dfInts "a" 0 5 (by rfl)
  intro v hv
  have hv2 : v = Value.vInt 1 ∨ v = Value.vInt 2 := by
    have hl : colValues dfInts "a" = [Value.vInt 1, Value.vInt 2] := by rfl
    rw [hl] at hv
    simpa using hv
  rcases hv2 with rfl | rfl
  · exact ⟨((1 : Int) : ℚ), rfl, by norm_num, by norm_num⟩
  · exact ⟨((2 : Int) : ℚ), rfl, by norm_num, by norm_num⟩

end DataChecks
